import Mathlib

/-!
Verification of the burnout-analytics pipeline
(`backend/data_generator.py`, `backend/ml_model.py`).

Real-valued columns are modelled over `ℚ`; `np.round(x, 2)` is modelled by
`round2`, which performs exact round-half-to-even (banker's rounding) on the
second decimal, matching NumPy's rounding rule.
-/

attribute [local semireducible] Rat.mul Rat.add Rat.sub Rat.inv Rat.ofScientific

/-- Rounds a rational to the nearest integer, ties going to the even integer
(the rounding rule used by `np.round`).  `Rat.floor` is used rather than the
`⌊·⌋` class projection so that the definition evaluates by kernel reduction. -/
def roundHalfEven (x : ℚ) : ℤ :=
  if x - x.floor < 1/2 then x.floor
  else if 1/2 < x - x.floor then x.floor + 1
  else if x.floor % 2 = 0 then x.floor else x.floor + 1

/-- Embedding of `np.round(x, 2)`: round to two decimal places. -/
def round2 (x : ℚ) : ℚ := (roundHalfEven (x * 100) : ℚ) / 100

/-- The primitive `Rat.floor` agrees with the floor of the `FloorRing` order
structure on `ℚ`. -/
theorem ratFloor_eq_intFloor (x : ℚ) : x.floor = ⌊x⌋ := rfl

/-- The result of `roundHalfEven` is at least the floor of its argument. -/
theorem floor_le_roundHalfEven (x : ℚ) : ⌊x⌋ ≤ roundHalfEven x := by
  unfold roundHalfEven
  rw [ratFloor_eq_intFloor]
  split_ifs <;> omega

/-- The result of `roundHalfEven` is at most the ceiling of its argument. -/
theorem roundHalfEven_le_ceil (x : ℚ) : roundHalfEven x ≤ ⌈x⌉ := by
  have hfc : ⌊x⌋ ≤ ⌈x⌉ := Int.floor_le_ceil x
  have hlt : (⌊x⌋ : ℚ) < x → ⌊x⌋ + 1 ≤ ⌈x⌉ := by
    intro h
    have : ⌊x⌋ < ⌈x⌉ := Int.lt_ceil.mpr h
    omega
  have hfl : (⌊x⌋ : ℚ) ≤ x := Int.floor_le x
  unfold roundHalfEven
  rw [ratFloor_eq_intFloor]
  split_ifs with h1 h2 h3
  · exact hfc
  · exact hlt (by linarith)
  · exact hfc
  · have hx : x - ⌊x⌋ = 1/2 := le_antisymm (not_lt.mp h2) (not_lt.mp h1)
    exact hlt (by linarith)

/-- Nonnegative inputs round to nonnegative outputs. -/
theorem round2_nonneg {x : ℚ} (h : 0 ≤ x) : 0 ≤ round2 x := by
  unfold round2
  have h0 : (0 : ℤ) ≤ ⌊x * 100⌋ := Int.floor_nonneg.mpr (by linarith)
  have := floor_le_roundHalfEven (x * 100)
  have : (0 : ℚ) ≤ (roundHalfEven (x * 100) : ℚ) := by exact_mod_cast le_trans h0 this
  linarith

/-- Inputs at most one round to outputs at most one. -/
theorem round2_le_one {x : ℚ} (h : x ≤ 1) : round2 x ≤ 1 := by
  unfold round2
  have h0 : ⌈x * 100⌉ ≤ (100 : ℤ) := Int.ceil_le.mpr (by push_cast; linarith)
  have := roundHalfEven_le_ceil (x * 100)
  have hq : (roundHalfEven (x * 100) : ℚ) ≤ 100 := by exact_mod_cast le_trans this h0
  linarith

/-!
Per-row feature formulas of `engineer_features` (data_generator.py, lines 58-96).
Each function embeds one column assignment.
-/

/-- Embeds `df['workload_index'] = np.round(active*0.4 + meetings*0.3 + after*0.3, 2)`. -/
def workload_index (active meetings after : ℚ) : ℚ :=
  round2 (active * 0.4 + meetings * 0.3 + after * 0.3)

/-- Embeds `df['wellness_index'] = np.round(np.where(sleep >= 7, 1.0, sleep/7)*0.5 + (1-stress)*0.5, 2)`. -/
def wellness_index (sleep stress : ℚ) : ℚ :=
  round2 ((if 7 ≤ sleep then 1 else sleep / 7) * 0.5 + (1 - stress) * 0.5)

/-- Embeds `df['meeting_burden'] = np.round(np.where(active > 0, meetings*0.5/active, 0), 2)`. -/
def meeting_burden (active meetings : ℚ) : ℚ :=
  round2 (if 0 < active then meetings * 0.5 / active else 0)

/-- Embeds the `np.select` computing `df['burnout_risk_index']` (first matching
condition wins, `np.round(..., 2)` applied to the selected value). -/
def burnout_risk_index (w well avg : ℚ) : ℚ :=
  round2 (if 8 < w ∧ well < 0.5 then 0.9
          else if 7 < w ∧ well < 0.6 then 0.75
          else if 7 < avg then 0.65
          else w / 10 * 0.4 + (1 - well) * 0.6)

/-- Embeds the `np.select` computing `df['burnout_category']`. -/
def burnout_category (risk : ℚ) : String :=
  if 0.7 ≤ risk then "High" else if 0.5 ≤ risk then "Medium" else "Low"

/-- Embeds `df['productivity_index'] = np.round(np.where(active > 0, focus/active, 0)*0.5 + skill*0.3 + (1 - mb)*0.2, 2)`. -/
def productivity_index (active focus skill mb : ℚ) : ℚ :=
  round2 ((if 0 < active then focus / active else 0) * 0.5 + skill * 0.3 + (1 - mb) * 0.2)

/-- Restates the spec's description of the burnout-risk rule (spec §4.2 step 8),
for comparison with the source-derived `burnout_risk_index`: branch constants
0.90 / 0.75 / 0.65 taken literally, rounding applied to the default arm. -/
def burnoutRiskSpec (w well avg : ℚ) : ℚ :=
  if 8 < w ∧ well < 0.5 then 0.90
  else if 7 < w ∧ well < 0.6 then 0.75
  else if 7 < avg then 0.65
  else round2 (w / 10 * 0.4 + (1 - well) * 0.6)

/-- C1: burnout_risk_index evaluates its four branches in strict priority order
with first match winning, agreeing with the spec's formula; in particular
(w = 9, well = 0.3) yields 0.90 regardless of the rolling average, and
(w = 5, well = 0.8, avg = 3) yields 0.32. -/
theorem burnout_risk_priority_rule :
    (∀ w well avg : ℚ, burnout_risk_index w well avg = burnoutRiskSpec w well avg) ∧
    (∀ avg : ℚ, burnout_risk_index 9 0.3 avg = 0.9) ∧
    burnout_risk_index 5 0.8 3 = 0.32 := by
  refine ⟨?_, ?_, by decide⟩
  · intro w well avg
    unfold burnout_risk_index burnoutRiskSpec
    split_ifs <;> rfl
  · intro avg
    unfold burnout_risk_index
    rw [if_pos (by norm_num : (8:ℚ) < 9 ∧ (0.3:ℚ) < 0.5)]
    decide

/-- C2: burnout_category is exactly the step function of the risk index:
High iff risk ≥ 0.70, Medium iff 0.50 ≤ risk < 0.70, Low iff risk < 0.50. -/
theorem burnout_category_thresholds (r : ℚ) :
    (burnout_category r = "High" ↔ 0.7 ≤ r) ∧
    (burnout_category r = "Medium" ↔ 0.5 ≤ r ∧ r < 0.7) ∧
    (burnout_category r = "Low" ↔ r < 0.5) := by
  unfold burnout_category
  split_ifs with h1 h2
  · exact ⟨⟨fun _ => h1, fun _ => rfl⟩,
      ⟨fun hc => absurd hc (by decide), fun hr => absurd h1 (not_le.mpr hr.2)⟩,
      ⟨fun hc => absurd hc (by decide), fun hr => absurd h1 (not_le.mpr (by linarith))⟩⟩
  · exact ⟨⟨fun hc => absurd hc (by decide), fun hr => absurd hr h1⟩,
      ⟨fun _ => ⟨h2, lt_of_not_le h1⟩, fun _ => rfl⟩,
      ⟨fun hc => absurd hc (by decide), fun hr => absurd h2 (not_le.mpr hr)⟩⟩
  · exact ⟨⟨fun hc => absurd hc (by decide), fun hr => absurd hr h1⟩,
      ⟨fun hc => absurd hc (by decide), fun hr => absurd hr.1 h2⟩,
      ⟨fun _ => lt_of_not_le h2, fun _ => rfl⟩⟩

/-- C9: meeting_burden is 0 when total_active_hours = 0 (the division is
guarded), and equals round(0.5·num_meetings/total_active_hours, 2) when
total_active_hours > 0. -/
theorem meeting_burden_guarded (h m : ℚ) :
    (h = 0 → meeting_burden h m = 0) ∧
    (0 < h → meeting_burden h m = round2 (0.5 * m / h)) := by
  constructor
  · rintro rfl
    unfold meeting_burden
    rw [if_neg (lt_irrefl 0)]
    decide
  · intro hpos
    unfold meeting_burden
    rw [if_pos hpos]
    congr 1
    ring

/-- Witness for `meeting_burden_guarded` at total_active_hours 0 and 2. -/
theorem meeting_burden_guarded_witness :
    meeting_burden 0 5 = 0 ∧ meeting_burden 2 3 = round2 (0.5 * 3 / 2) :=
  ⟨(meeting_burden_guarded 0 5).1 rfl, (meeting_burden_guarded 2 3).2 (by norm_num)⟩

/-!
The synthetic data source `generate_employee_data` (data_generator.py,
lines 5-54).  The function seeds NumPy with the fixed seed 42, so all random
draws form one fixed deterministic stream; but the dates of the daily rows
come from `datetime.now()`: `start_date = datetime.now() - timedelta(days=num_days)`
and a row is emitted for each of the `num_days` consecutive days whose
weekday is < 5.  Days are modelled as integers counted from a fixed Monday,
so `d % 7` is Python's `date.weekday()` (Monday = 0 .. Sunday = 6).
-/

/-- Embeds the date loop of `generate_employee_data` (lines 28-33): the dates
of the daily rows produced for one employee when the call is made on day
`today`, namely the weekdays among the `numDays` days preceding `today`. -/
def generatedDates (today : ℤ) (numDays : ℕ) : List ℤ :=
  ((List.range numDays).map (fun d : ℕ => today - (numDays : ℤ) + (d : ℤ))).filter
    (fun day => day % 7 < 5)

/-- Embeds the (employee index, date) keys of the daily table built by
`generate_employee_data` (outer loop over employees, inner loop over days):
everything else in a row is a deterministic function of the seeded random
stream and these keys. -/
def genRowKeys (numEmployees numDays : ℕ) (today : ℤ) : List (ℕ × ℤ) :=
  (List.range numEmployees).flatMap
    (fun i => (generatedDates today numDays).map (fun d => (i, d)))

/-- Counterexample to C3: with employee_count = 2 and day_count = 5, a call
made on day 100 and a call made on day 101 (two different run dates) produce
daily tables with different row keys, so the output is not byte-identical
across repeated runs. -/
theorem generate_not_run_reproducible_counterexample :
    genRowKeys 2 5 100 ≠ genRowKeys 2 5 101 := by decide

/-- C3 (amended): for fixed (employee_count, day_count) the output of
`generate_employee_data` is reproducible only across calls made on the same
calendar day: the seed is fixed (42), but the daily-row keys are exactly the
pairs (i, d) with i < employee_count and d a weekday in the trailing
day_count-day window ending at the call date, so the table depends on the
current date as an extra hidden input. -/
theorem genRowKeys_characterization (numEmployees numDays : ℕ) (today : ℤ)
    (i : ℕ) (d : ℤ) :
    (i, d) ∈ genRowKeys numEmployees numDays today ↔
      i < numEmployees ∧ today - numDays ≤ d ∧ d < today ∧ d % 7 < 5 := by
  unfold genRowKeys generatedDates
  simp only [List.mem_flatMap, List.mem_map, List.mem_filter, List.mem_range,
    Prod.mk.injEq, decide_eq_true_eq]
  constructor
  · rintro ⟨a, ha, d', ⟨⟨k, hk, rfl⟩, hw⟩, rfl, rfl⟩
    exact ⟨ha, by omega, by omega, hw⟩
  · rintro ⟨hi, hlo, hhi, hw⟩
    exact ⟨i, hi, d, ⟨⟨(d - (today - numDays)).toNat, by omega, by omega⟩, hw⟩,
      rfl, rfl⟩

/-!
Table-level embedding of `engineer_features` (data_generator.py, lines 56-113).
A `Row` carries the raw per-employee-day columns present in the merged frame
`daily_df.merge(employees_df)`.  The frame is sorted by (employee_id, date)
— `df.sort_values(by=['employee_id', 'date'])` — and the three rolling columns
are computed per employee over a trailing window of 7 rows with a minimum of
one period, exactly as `df.groupby('employee_id')[col].rolling(window=7,
min_periods=1)`.
-/

/-- Raw input row of `engineer_features`: the columns of the merged
daily/profile frame that the derived columns read.  Employees are keyed by a
natural number and dates by an integer day number. -/
structure Row where
  employee_id : ℕ
  date : ℤ
  total_active_hours : ℚ
  num_meetings : ℚ
  focus_hours : ℚ
  sleep_hours : ℚ
  stress_score : ℚ
  after_hours_work : ℚ
  tenure_years : ℚ
  skill_level : ℚ
deriving DecidableEq, Repr

/-- Lexicographic sort key of `df.sort_values(by=['employee_id', 'date'])`. -/
def rowLe (a b : Row) : Prop :=
  a.employee_id < b.employee_id ∨
    (a.employee_id = b.employee_id ∧ a.date ≤ b.date)

instance : DecidableRel rowLe := fun a b =>
  inferInstanceAs (Decidable (a.employee_id < b.employee_id ∨
    (a.employee_id = b.employee_id ∧ a.date ≤ b.date)))

instance : IsTotal Row rowLe := ⟨by intro a b; unfold rowLe; omega⟩

instance : IsTrans Row rowLe := ⟨by intro a b c; unfold rowLe; omega⟩

/-- Inserting an element below every element of a list places it in front. -/
theorem orderedInsert_eq_cons (a : Row) (l : List Row)
    (h : ∀ z ∈ l, rowLe a z) : List.orderedInsert rowLe a l = a :: l := by
  cases l with
  | nil => rfl
  | cons z t =>
    unfold List.orderedInsert
    rw [if_pos (h z (List.mem_cons_self z t))]

/-- Filtering commutes with ordered insertion into a sorted list. -/
theorem filter_orderedInsert (p : Row → Bool) (a : Row) :
    ∀ l : List Row, l.Sorted rowLe →
      (List.orderedInsert rowLe a l).filter p =
        if p a then List.orderedInsert rowLe a (l.filter p) else l.filter p := by
  have hins : ∀ (x : Row) (xs : List Row), List.orderedInsert rowLe a (x :: xs)
      = if rowLe a x then a :: x :: xs else x :: List.orderedInsert rowLe a xs :=
    fun x xs => rfl
  intro l
  induction l with
  | nil =>
    intro _
    cases hpa : p a <;>
      simp [List.orderedInsert_nil, List.filter_cons, List.filter_nil, hpa]
  | cons b t ih =>
    intro hs
    have hst : t.Sorted rowLe := hs.of_cons
    have hbt : ∀ z ∈ t, rowLe b z := List.rel_of_sorted_cons hs
    rw [hins b t]
    by_cases hab : rowLe a b
    · rw [if_pos hab]
      simp only [List.filter_cons]
      cases hpa : p a with
      | true =>
        cases hpb : p b with
        | true =>
          simp only [eq_self_iff_true, if_true]
          rw [hins b (t.filter p), if_pos hab]
        | false =>
          simp only [eq_self_iff_true, if_true, Bool.false_eq_true, if_false]
          rw [orderedInsert_eq_cons]
          intro z hz
          exact Trans.trans hab (hbt z (List.mem_filter.mp hz).1)
      | false =>
        simp only [Bool.false_eq_true, if_false]
    · rw [if_neg hab]
      simp only [List.filter_cons]
      rw [ih hst]
      cases hpa : p a with
      | true =>
        simp only [eq_self_iff_true, if_true]
        cases hpb : p b with
        | true =>
          simp only [eq_self_iff_true, if_true]
          rw [hins b (t.filter p), if_neg hab]
        | false =>
          simp only [Bool.false_eq_true, if_false]
      | false =>
        simp only [Bool.false_eq_true, if_false]

/-- Filtering commutes with the stable sort used before the rolling pass. -/
theorem filter_insertionSort (p : Row → Bool) (l : List Row) :
    (List.insertionSort rowLe l).filter p =
      List.insertionSort rowLe (l.filter p) := by
  induction l with
  | nil => rfl
  | cons a t ih =>
    show (List.orderedInsert rowLe a (List.insertionSort rowLe t)).filter p = _
    rw [filter_orderedInsert p a _ (List.sorted_insertionSort rowLe t), ih]
    cases hpa : p a with
    | true => simp [List.filter, hpa, List.insertionSort]
    | false => simp [List.filter, hpa, List.insertionSort]

/-- Mean of a list of rationals (`Series.mean` over a rolling window). -/
def listMean (xs : List ℚ) : ℚ := xs.sum / xs.length

/-- Sample variance (ddof = 1) of a list, as used by pandas `rolling(...).std()`
before the square root; meaningful only for lists of length at least 2. -/
def sampleVar (xs : List ℚ) : ℚ :=
  ((xs.map (fun x => (x - listMean xs) ^ 2)).sum) / ((xs.length : ℚ) - 1)

/-- Trailing window of the 7 most recent values (`rolling(window=7)`). -/
def last7 (xs : List ℚ) : List ℚ := xs.drop (xs.length - 7)

/-- Floor of the square root of a nonnegative rational. -/
def floorSqrtQ (t : ℚ) : ℕ := Nat.sqrt t.floor.toNat

/-- Nearest integer to the square root of a nonnegative rational, ties to
even, computed exactly by comparing `t` with `(m + 1/2)^2`. -/
def roundSqrtInt (t : ℚ) : ℕ :=
  let m := floorSqrtQ t
  if t < ((m : ℚ) + 1/2) ^ 2 then m
  else if ((m : ℚ) + 1/2) ^ 2 < t then m + 1
  else if m % 2 = 0 then m else m + 1

/-- Exact value of `np.round(sqrt v, 2)` for a nonnegative rational `v`:
the square root of `v` rounded half-to-even on the second decimal.  Embeds
the rounded standard deviation `np.round(rolling.std(), 2)` with `v` the
sample variance. -/
def round2Sqrt (v : ℚ) : ℚ := (roundSqrtInt (v * 10000) : ℚ) / 100

/-- Engineered row: the input `Row` plus every column that
`engineer_features` appends. -/
structure ERow where
  row : Row
  workload_index : ℚ
  wellness_index : ℚ
  meeting_burden : ℚ
  avg_workload_7d : ℚ
  avg_wellness_7d : ℚ
  sleep_variance_7d : ℚ
  burnout_risk_index : ℚ
  burnout_category : String
  productivity_index : ℚ
deriving DecidableEq, Repr

/-- Builds the engineered row for `r` given `mine`, the date-ordered list of
rows of `r`'s employee up to and including `r` itself (the group that the
`groupby('employee_id').rolling(window=7, min_periods=1)` pass sees).  The
`.std()` of a single observation is NaN and `fillna(0)` maps it to 0. -/
def mkEF (mine : List Row) (r : Row) : ERow :=
  let w := workload_index r.total_active_hours r.num_meetings r.after_hours_work
  let wl := wellness_index r.sleep_hours r.stress_score
  let mb := meeting_burden r.total_active_hours r.num_meetings
  let wWin := last7 (mine.map
    (fun x => workload_index x.total_active_hours x.num_meetings x.after_hours_work))
  let weWin := last7 (mine.map (fun x => wellness_index x.sleep_hours x.stress_score))
  let sWin := last7 (mine.map (fun x => x.sleep_hours))
  let avgW := round2 (listMean wWin)
  let risk := burnout_risk_index w wl avgW
  { row := r
    workload_index := w
    wellness_index := wl
    meeting_burden := mb
    avg_workload_7d := avgW
    avg_wellness_7d := round2 (listMean weWin)
    sleep_variance_7d := if sWin.length < 2 then 0 else round2Sqrt (sampleVar sWin)
    burnout_risk_index := risk
    burnout_category := burnout_category risk
    productivity_index :=
      productivity_index r.total_active_hours r.focus_hours r.skill_level mb }

/-- The engineered row keeps its raw row. -/
theorem mkEF_row (mine : List Row) (r : Row) : (mkEF mine r).row = r := rfl

/-- Walks the sorted frame accumulating the processed prefix `pre`; each row
is engineered against the rows of its own employee seen so far (pandas
computes the rolling columns per `groupby('employee_id')` group, in frame
order, which after the sort is date order). -/
def annotate (pre : List Row) : List Row → List ERow
  | [] => []
  | r :: l =>
      mkEF ((pre ++ [r]).filter (fun x => x.employee_id == r.employee_id)) r ::
        annotate (pre ++ [r]) l

/-- Single-employee version of `annotate`: the prefix is already restricted
to the rows of the employee being processed. -/
def annotateOne (pre : List Row) : List Row → List ERow
  | [] => []
  | r :: l => mkEF (pre ++ [r]) r :: annotateOne (pre ++ [r]) l

/-- Embeds `engineer_features`: sort by (employee_id, date), then append the
per-row and per-employee rolling columns. -/
def engineer_features (df : List Row) : List ERow :=
  annotate [] (List.insertionSort rowLe df)

/-- The engineered rows of employee `e` depend only on the rows of employee
`e` in the frame: filtering `annotate` to one employee is `annotateOne` on
the filtered inputs. -/
theorem annotate_filter (e : ℕ) :
    ∀ (l pre : List Row),
      (annotate pre l).filter (fun er => er.row.employee_id == e) =
        annotateOne (pre.filter (fun x => x.employee_id == e))
          (l.filter (fun x => x.employee_id == e)) := by
  intro l
  induction l with
  | nil => intro pre; rfl
  | cons r t ih =>
    intro pre
    show (mkEF ((pre ++ [r]).filter (fun x => x.employee_id == r.employee_id)) r ::
        annotate (pre ++ [r]) t).filter (fun er => er.row.employee_id == e) = _
    rw [List.filter_cons]
    cases hre : r.employee_id == e with
    | true =>
      obtain rfl : r.employee_id = e := by simpa using hre
      simp only [mkEF_row, hre, if_true, List.filter_cons, List.filter_append,
        eq_self_iff_true]
      rw [ih (pre ++ [r])]
      simp [List.filter_append, hre, annotateOne]
    | false =>
      simp only [mkEF_row, hre, Bool.false_eq_true, if_false]
      rw [ih (pre ++ [r])]
      simp [List.filter_append, hre, List.filter_cons]

/-- C5: the 7-day rolling aggregates attached to employee `e`'s rows depend
only on employee `e`'s rows: any two frames with the same rows of `e`
(inserting, removing or reordering other employees' rows) yield the same
avg_workload_7d, avg_wellness_7d and sleep_variance_7d series for `e`. -/
theorem rolling_aggregates_per_employee (e : ℕ) (t1 t2 : List Row)
    (h : t1.filter (fun x => x.employee_id == e) =
         t2.filter (fun x => x.employee_id == e)) :
    ((engineer_features t1).filter (fun er => er.row.employee_id == e)).map
        (fun er => (er.avg_workload_7d, er.avg_wellness_7d, er.sleep_variance_7d))
      = ((engineer_features t2).filter (fun er => er.row.employee_id == e)).map
        (fun er => (er.avg_workload_7d, er.avg_wellness_7d, er.sleep_variance_7d)) := by
  unfold engineer_features
  rw [annotate_filter, annotate_filter, filter_insertionSort, filter_insertionSort, h]

/-- Rows used by the witnesses: employee 1 on two dates, employee 2 between. -/
def rowA1 : Row :=
  ⟨1, 0, 8, 2, 6, 7, 0.2, 1, 2, 0.8⟩

/-- Second row of employee 1, one day later. -/
def rowA2 : Row :=
  ⟨1, 1, 9, 3, 6, 6, 0.5, 0, 2, 0.8⟩

/-- Row of a different employee (employee 2). -/
def rowB : Row :=
  ⟨2, 0, 10, 4, 5, 8, 0.1, 2, 3, 0.9⟩

/-- Witness for `rolling_aggregates_per_employee`: removing employee 2's row
leaves employee 1's rolling aggregates unchanged. -/
theorem rolling_aggregates_per_employee_witness :
    ((engineer_features [rowA1, rowB, rowA2]).filter
        (fun er => er.row.employee_id == 1)).map
        (fun er => (er.avg_workload_7d, er.avg_wellness_7d, er.sleep_variance_7d))
      = ((engineer_features [rowA1, rowA2]).filter
        (fun er => er.row.employee_id == 1)).map
        (fun er => (er.avg_workload_7d, er.avg_wellness_7d, er.sleep_variance_7d)) :=
  rolling_aggregates_per_employee 1 [rowA1, rowB, rowA2] [rowA1, rowA2] (by decide)

/-- C4 (amended): the computed burnout_risk_index lies in [0, 1] whenever the
row's workload_index is in [0, 10] and its wellness_index is in [0, 1]; the
default branch grows linearly in workload_index, so rows with
workload_index > 10 (high meeting counts) can push the score above 1. -/
theorem burnout_risk_bounded (w well avg : ℚ) (hw0 : 0 ≤ w) (hw1 : w ≤ 10)
    (he0 : 0 ≤ well) (he1 : well ≤ 1) :
    0 ≤ burnout_risk_index w well avg ∧ burnout_risk_index w well avg ≤ 1 := by
  unfold burnout_risk_index
  have hb : ∀ x : ℚ, 0 ≤ x → x ≤ 1 → 0 ≤ round2 x ∧ round2 x ≤ 1 :=
    fun x h0 h1 => ⟨round2_nonneg h0, round2_le_one h1⟩
  split_ifs
  · exact hb _ (by norm_num) (by norm_num)
  · exact hb _ (by norm_num) (by norm_num)
  · exact hb _ (by norm_num) (by norm_num)
  · exact hb _ (by linarith) (by linarith)

/-- Witness for `burnout_risk_bounded` at (5, 0.8, 3). -/
theorem burnout_risk_bounded_witness :
    0 ≤ burnout_risk_index 5 0.8 3 ∧ burnout_risk_index 5 0.8 3 ≤ 1 :=
  burnout_risk_bounded 5 0.8 3 (by norm_num) (by norm_num) (by norm_num)
    (by norm_num)

/-- Input table refuting C4: employee 1 has six idle days followed by a day
with 10 active hours and 60 meetings (sleep 7, stress 0.8), giving
workload_index 22, wellness_index 0.6 and a rolling average of 3.14, so the
default branch yields round(22/10·0.4 + 0.4·0.6, 2) = 1.12 > 1. -/
def c4Table : List Row :=
  [⟨1, 0, 0, 0, 0, 7, 0, 0, 1, 1⟩,
   ⟨1, 1, 0, 0, 0, 7, 0, 0, 1, 1⟩,
   ⟨1, 2, 0, 0, 0, 7, 0, 0, 1, 1⟩,
   ⟨1, 3, 0, 0, 0, 7, 0, 0, 1, 1⟩,
   ⟨1, 4, 0, 0, 0, 7, 0, 0, 1, 1⟩,
   ⟨1, 5, 0, 0, 0, 7, 0, 0, 1, 1⟩,
   ⟨1, 6, 10, 60, 1, 7, 0.8, 0, 1, 1⟩]

/-- Counterexample to C4: on `c4Table` the feature-engineering stage computes
a burnout_risk_index of 1.12 for the last row, outside [0, 1]. -/
theorem burnout_risk_not_bounded_counterexample :
    ((engineer_features c4Table).map (fun er => er.burnout_risk_index))
        = [0, 0, 0, 0, 0, 0, 1.12] ∧
      ¬ ((1.12 : ℚ) ≤ 1) := by
  constructor
  · decide
  · norm_num

/-!
Embedding of `BurnoutPredictor` (ml_model.py).  The sklearn estimators are
modelled by the data they were fitted on: fitting is deterministic, so a
fitted estimator is determined by its fit input.  The numeric functions the
fitted estimators compute at inference time (`scaler.transform`,
`model.predict`, `model.predict_proba`) are opaque library code and are
abstracted as explicit function parameters; no claim depends on their
values, only on how `BurnoutPredictor` routes data through them.
-/

/-- A fitted `LabelEncoder`: its `classes_` array (sorted unique labels). -/
structure EncoderFit where
  classes : List String
deriving DecidableEq, Repr

/-- A fitted `StandardScaler`, determined by the matrix it was fitted on. -/
structure ScalerFit where
  data : List (List ℚ)
deriving DecidableEq, Repr

/-- A fitted `RandomForestClassifier(n_estimators=50, max_depth=8,
random_state=42)`, determined by its scaled training matrix and labels. -/
structure ModelFit where
  x : List (List ℚ)
  y : List ℕ
deriving DecidableEq, Repr

/-- Lexicographic comparison of character lists by code point (the order
`np.unique` sorts fixed-width unicode strings in). -/
def charListLt : List Char → List Char → Bool
  | [], [] => false
  | [], _ :: _ => true
  | _ :: _, [] => false
  | a :: as, b :: bs =>
      if a.toNat < b.toNat then true
      else if b.toNat < a.toNat then false
      else charListLt as bs

/-- Code-point order on strings. -/
def strLt (a b : String) : Bool := charListLt a.data b.data

/-- Inserts a label into a sorted duplicate-free list (`np.unique` order). -/
def insertClass (s : String) : List String → List String
  | [] => [s]
  | x :: xs =>
      if strLt x s then x :: insertClass s xs
      else if x = s then x :: xs
      else s :: x :: xs

/-- The sorted unique labels of a column: `LabelEncoder().fit(...).classes_`. -/
def sortedClasses (l : List String) : List String := l.foldr insertClass []

/-- Fits a `LabelEncoder` on a label column. -/
def fitEncoder (labels : List String) : EncoderFit := ⟨sortedClasses labels⟩

/-- `LabelEncoder.transform` of one label: its index in `classes_`. -/
def encTransform (enc : EncoderFit) (s : String) : ℕ := enc.classes.indexOf s

/-- The 13 feature column names, in the order `feature_cols` lists them. -/
def featureCols : List String :=
  ["workload_index", "wellness_index", "meeting_burden",
   "num_meetings", "focus_hours", "sleep_hours", "stress_score",
   "after_hours_work", "avg_workload_7d", "avg_wellness_7d",
   "sleep_variance_7d", "tenure_years", "skill_level"]

/-- The feature vector `features_df[self.feature_cols]` of one engineered
row, in `featureCols` order. -/
def featVecE (r : ERow) : List ℚ :=
  [r.workload_index, r.wellness_index, r.meeting_burden,
   r.row.num_meetings, r.row.focus_hours, r.row.sleep_hours,
   r.row.stress_score, r.row.after_hours_work, r.avg_workload_7d,
   r.avg_wellness_7d, r.sleep_variance_7d, r.row.tenure_years,
   r.row.skill_level]

/-- State of a `BurnoutPredictor`: the three fitted sub-components (None
until fitted, as in `__init__`) and the feature-name list. -/
structure Predictor where
  model : Option ModelFit
  scaler : Option ScalerFit
  label_encoder : Option EncoderFit
  feature_cols : List String
deriving DecidableEq, Repr

/-- A freshly constructed `BurnoutPredictor()`. -/
def initPredictor : Predictor := ⟨none, none, none, featureCols⟩

/-- Failure of `train`:  `train_test_split(..., stratify=y)` raises when the
input is degenerate. -/
inductive TrainError where
  | stratifyError
deriving DecidableEq, Repr

/-- Failure of `predict`: the unready-model `ValueError("Model not trained
yet")`, or the `AttributeError` of calling through a `None` scaler/encoder
(unreachable through the class's own API). -/
inductive PredictError where
  | notTrained
  | notFitted
deriving DecidableEq, Repr

/-- Embeds the precondition of `train_test_split(X, y, test_size=0.2,
random_state=42, stratify=y)` (sklearn raises `ValueError` when the data
cannot be split: fewer than two samples overall, or a stratification class
with fewer than two members). -/
def splitFails (y : List ℕ) : Bool :=
  y.length < 2 || y.any (fun c => y.count c < 2)

/-- Encoded label column of a training frame:
`self.label_encoder.fit_transform(training_df['burnout_category'])`. -/
def trainedLabels (df : List ERow) : List ℕ :=
  (df.map (fun r => r.burnout_category)).map
    (encTransform (fitEncoder (df.map (fun r => r.burnout_category))))

/-- The (feature vector, encoded label) pairs handed to the splitter. -/
def trainPairs (df : List ERow) : List (List ℚ × ℕ) :=
  (df.map featVecE).zip (trainedLabels df)

/-- The scaler fitted on the training partition chosen by `split`
(`StandardScaler().fit(X_train)`). -/
def newScaler (split : List (List ℚ × ℕ) → List (List ℚ × ℕ))
    (df : List ERow) : ScalerFit :=
  ⟨(split (trainPairs df)).map Prod.fst⟩

/-- The forest fitted on the scaled training partition
(`model.fit(X_train_scaled, y_train)`); `scT` is the opaque
`scaler.transform`. -/
def newModel (scT : ScalerFit → List ℚ → List ℚ)
    (split : List (List ℚ × ℕ) → List (List ℚ × ℕ))
    (df : List ERow) : ModelFit :=
  ⟨(split (trainPairs df)).map (fun xy => scT (newScaler split df) xy.1),
   (split (trainPairs df)).map Prod.snd⟩

/-- Embeds `BurnoutPredictor.train`, keeping the order of the assignments to
`self`: `self.label_encoder` is assigned before the stratified split runs,
`self.scaler` after it, `self.model` last.  Returns the call's outcome
together with the state of `self` when the call ends (normally or by
raising).  The `dropna(subset=['avg_workload_7d'])` step is the identity
here: every `ERow` carries a populated rolling average, as `min_periods=1`
guarantees for the pipeline's own frames. -/
def predictorTrain (scT : ScalerFit → List ℚ → List ℚ)
    (split : List (List ℚ × ℕ) → List (List ℚ × ℕ))
    (p : Predictor) (df : List ERow) :
    Except TrainError Predictor × Predictor :=
  let enc := fitEncoder (df.map (fun r => r.burnout_category))
  let p1 := { p with label_encoder := some enc }
  if splitFails (trainedLabels df) then
    (Except.error TrainError.stratifyError, p1)
  else
    let p2 := { p1 with scaler := some (newScaler split df) }
    let p3 := { p2 with model := some (newModel scT split df) }
    (Except.ok p3, p3)

/-- Output row of `predict`: the input row plus the two appended columns. -/
structure PRow where
  base : ERow
  prediction_category : String
  prediction_proba_high : ℚ
deriving DecidableEq, Repr

/-- Embeds `BurnoutPredictor.predict`: raises the unready-model error when
`self.model is None`, otherwise scales the features with the already fitted
scaler, predicts with the forest and appends `prediction_category` and
`prediction_proba_high` (`0.0` when "High" is not among the encoder's
classes).  `scT`, `rfP`, `rfPr` are the opaque `scaler.transform`,
`model.predict` and `model.predict_proba`. -/
def predictorPredict (scT : ScalerFit → List ℚ → List ℚ)
    (rfP : ModelFit → List ℚ → ℕ) (rfPr : ModelFit → List ℚ → List ℚ)
    (p : Predictor) (df : List ERow) : Except PredictError (List PRow) :=
  match p.model with
  | none => Except.error PredictError.notTrained
  | some m =>
    match p.scaler, p.label_encoder with
    | some sc, some enc =>
        Except.ok (df.map (fun r =>
          { base := r
            prediction_category :=
              enc.classes.getD (rfP m (scT sc (featVecE r))) ""
            prediction_proba_high :=
              if "High" ∈ enc.classes then
                (rfPr m (scT sc (featVecE r))).getD
                  (enc.classes.indexOf "High") 0
              else 0 }))
    | _, _ => Except.error PredictError.notFitted

/-- The pickled blob written by `BurnoutPredictor.save`. -/
structure Blob where
  model : Option ModelFit
  scaler : Option ScalerFit
  label_encoder : Option EncoderFit
  feature_cols : List String
deriving DecidableEq, Repr

/-- Embeds `BurnoutPredictor.save`: the four fields, pickled. -/
def predictorSave (p : Predictor) : Blob :=
  ⟨p.model, p.scaler, p.label_encoder, p.feature_cols⟩

/-- Embeds `BurnoutPredictor.load`: when the file exists (`some` blob), all
four fields are replaced from it; otherwise `self` is returned unchanged. -/
def predictorLoad (p : Predictor) (b : Option Blob) : Predictor :=
  match b with
  | none => p
  | some b => ⟨b.model, b.scaler, b.label_encoder, b.feature_cols⟩

/-- C6 (amended): `train` is not atomic under failure.  On every call the
label encoder is replaced first (it is assigned before the stratified split
runs); if the split then raises, the call ends with the new label encoder
but the pre-call model and scaler — a partially updated state — while on a
successful call all three sub-components hold the newly fitted values. -/
theorem train_update_discipline (scT : ScalerFit → List ℚ → List ℚ)
    (split : List (List ℚ × ℕ) → List (List ℚ × ℕ))
    (p : Predictor) (df : List ERow) :
    (predictorTrain scT split p df).2.label_encoder
        = some (fitEncoder (df.map (fun r => r.burnout_category))) ∧
    (if splitFails (trainedLabels df) then
        (predictorTrain scT split p df).1 = Except.error TrainError.stratifyError ∧
        (predictorTrain scT split p df).2.model = p.model ∧
        (predictorTrain scT split p df).2.scaler = p.scaler
      else
        (predictorTrain scT split p df).1
            = Except.ok ((predictorTrain scT split p df).2) ∧
        (predictorTrain scT split p df).2.scaler = some (newScaler split df) ∧
        (predictorTrain scT split p df).2.model = some (newModel scT split df)) := by
  cases hc : splitFails (trainedLabels df) <;> simp [predictorTrain, hc]

/-- Dummy `scaler.transform`: predictions' numeric values are irrelevant to
the routing claims. -/
def scT0 : ScalerFit → List ℚ → List ℚ := fun _ x => x

/-- Dummy `model.predict`. -/
def rfP0 : ModelFit → List ℚ → ℕ := fun _ _ => 0

/-- Dummy `model.predict_proba`. -/
def rfPr0 : ModelFit → List ℚ → List ℚ := fun _ _ => [1]

/-- Dummy `train_test_split` selection: train on everything. -/
def split0 : List (List ℚ × ℕ) → List (List ℚ × ℕ) := fun l => l

/-- A previously trained predictor (its sub-components fitted on some
earlier data). -/
def p0 : Predictor :=
  ⟨some ⟨[[1]], [0]⟩, some ⟨[[1]]⟩, some ⟨["Low"]⟩, featureCols⟩

/-- An engineered row whose burnout_category is "High". -/
def eHigh : ERow := ⟨rowA1, 9, 0.4, 0.5, 8.6, 0.45, 0.7, 0.9, "High", 0.6⟩

/-- Two engineered rows labelled "Low"; a frame on which the stratified
split succeeds (each class has two members). -/
def eLow1 : ERow := ⟨rowA1, 4, 0.9, 0.13, 4, 0.9, 0, 0.22, "Low", 0.85⟩

/-- Second "Low" row. -/
def eLow2 : ERow := ⟨rowA2, 4.5, 0.62, 0.17, 4.25, 0.76, 0.71, 0.25, "Low", 0.79⟩

/-- A trainable frame: two rows of one class. -/
def dfT : List ERow := [eLow1, eLow2]

/-- Counterexample to C6: retraining `p0` on a one-row frame makes the
stratified split raise after `self.label_encoder` has already been
reassigned, so the call fails leaving a new label encoder next to the old
model and scaler — a partially updated state. -/
theorem train_not_atomic_counterexample :
    (predictorTrain scT0 split0 p0 [eHigh]).1
        = Except.error TrainError.stratifyError ∧
    (predictorTrain scT0 split0 p0 [eHigh]).2.label_encoder
        ≠ p0.label_encoder ∧
    (predictorTrain scT0 split0 p0 [eHigh]).2.model = p0.model ∧
    (predictorTrain scT0 split0 p0 [eHigh]).2.scaler = p0.scaler :=
  ⟨rfl, by decide, rfl, rfl⟩

/-- C7: `predict` on a predictor that has never been successfully trained
fails with the unready-model error ("Model not trained yet") and never
returns rows; after any successful `train`, that error can no longer
occur. -/
theorem predict_unready_guard (scT : ScalerFit → List ℚ → List ℚ)
    (rfP : ModelFit → List ℚ → ℕ) (rfPr : ModelFit → List ℚ → List ℚ)
    (split : List (List ℚ × ℕ) → List (List ℚ × ℕ)) :
    (∀ df, predictorPredict scT rfP rfPr initPredictor df
        = Except.error PredictError.notTrained) ∧
    (∀ (p : Predictor) (df : List ERow) (q : Predictor),
        (predictorTrain scT split p df).1 = Except.ok q →
        ∀ ds, predictorPredict scT rfP rfPr q ds
            ≠ Except.error PredictError.notTrained) := by
  constructor
  · intro df; rfl
  · intro p df q hok ds
    cases hc : splitFails (trainedLabels df) with
    | true => simp [predictorTrain, hc] at hok
    | false =>
      simp only [predictorTrain, hc, Bool.false_eq_true, if_false,
        Except.ok.injEq] at hok
      subst hok
      simp [predictorPredict]

/-- Witness for `predict_unready_guard`: a fresh predictor refuses to
predict; after training on `dfT` it no longer raises the unready error. -/
theorem predict_unready_guard_witness :
    predictorPredict scT0 rfP0 rfPr0 initPredictor dfT
        = Except.error PredictError.notTrained ∧
    predictorPredict scT0 rfP0 rfPr0
        ((predictorTrain scT0 split0 initPredictor dfT).2) dfT
      ≠ Except.error PredictError.notTrained :=
  ⟨(predict_unready_guard scT0 rfP0 rfPr0 split0).1 dfT,
   (predict_unready_guard scT0 rfP0 rfPr0 split0).2 initPredictor dfT
     ((predictorTrain scT0 split0 initPredictor dfT).2) (by rfl) dfT⟩

/-- C8: saving a trained predictor and loading the blob into a fresh
predictor restores {model, scaler, label_encoder, feature_cols} losslessly,
and the loaded predictor's `predict` agrees with the original's on every
input frame. -/
theorem save_load_roundtrip (scT : ScalerFit → List ℚ → List ℚ)
    (rfP : ModelFit → List ℚ → ℕ) (rfPr : ModelFit → List ℚ → List ℚ)
    (p : Predictor) (htrained : p.model.isSome = true) :
    predictorLoad initPredictor (some (predictorSave p)) = p ∧
    ∀ df, predictorPredict scT rfP rfPr
        (predictorLoad initPredictor (some (predictorSave p))) df
      = predictorPredict scT rfP rfPr p df := by
  obtain ⟨m, sc, enc, fc⟩ := p
  exact ⟨rfl, fun df => rfl⟩

/-- Witness for `save_load_roundtrip` on the trained predictor `p0`. -/
theorem save_load_roundtrip_witness :
    predictorLoad initPredictor (some (predictorSave p0)) = p0 ∧
    predictorPredict scT0 rfP0 rfPr0
        (predictorLoad initPredictor (some (predictorSave p0))) dfT
      = predictorPredict scT0 rfP0 rfPr0 p0 dfT :=
  ⟨(save_load_roundtrip scT0 rfP0 rfPr0 p0 rfl).1,
   (save_load_roundtrip scT0 rfP0 rfPr0 p0 rfl).2 dfT⟩

/-- C10: when `predict` returns rows, the returned frame is the input frame
with each row kept (same rows, same order, every pre-existing column
unchanged inside `base`) and exactly the two new columns
`prediction_category` and `prediction_proba_high` appended. -/
theorem predict_appends_only (scT : ScalerFit → List ℚ → List ℚ)
    (rfP : ModelFit → List ℚ → ℕ) (rfPr : ModelFit → List ℚ → List ℚ)
    (p : Predictor) (df : List ERow) (out : List PRow)
    (h : predictorPredict scT rfP rfPr p df = Except.ok out) :
    out.map (fun r => r.base) = df ∧ out.length = df.length := by
  obtain ⟨m, sc, enc, fc⟩ := p
  cases m with
  | none => simp [predictorPredict] at h
  | some m =>
    cases sc with
    | none => simp [predictorPredict] at h
    | some sc =>
      cases enc with
      | none => simp [predictorPredict] at h
      | some enc =>
        simp only [predictorPredict, Except.ok.injEq] at h
        subst h
        constructor
        · induction df with
          | nil => rfl
          | cons a t ih => simpa using ih
        · simp

/-- Witness for `predict_appends_only`: predicting with `p0` over `dfT`. -/
theorem predict_appends_only_witness :
    ((dfT.map (fun r => PRow.mk r "Low" 0)).map (fun r => r.base) = dfT) ∧
    (dfT.map (fun r => PRow.mk r "Low" 0)).length = dfT.length :=
  predict_appends_only scT0 rfP0 rfPr0 p0 dfT
    (dfT.map (fun r => PRow.mk r "Low" 0)) (by rfl)
